import Mathlib

/-!
Shallow embedding of the MongoDB query-agent core of the
procurement-agentic-system repository, together with proofs of the frozen
claims about it.

Embedded source files (src/src/api/services/mongodb_agent/):
  * executor.py      — MongoDBQueryExecutor.execute_aggregation, _serialize_results
  * validators.py    — QueryValidator.validate_aggregation_pipeline
  * summarizer.py    — AnswerSummarizer.summarize
  * agent.py         — GPT5MongoDBAgent.query (the bounded retry loop)
  * langgraph_agent.py — LangGraphMongoDBAgent (graph-driven wrapper)

External collaborators (the OpenAI completion service and the MongoDB
engine) are modelled as oracles supplied in an environment record; Python
exceptions are modelled with Except; in-place mutation of the caller's
stage list by the executor is modelled by returning the list's final value
alongside the result.  The pipeline generator (pipeline_generator.py) is
not present under src/; per its interface it is modelled as an
environment oracle returning (pipeline?, response id?, raw response,
error?).
-/

/-- BSON-ish runtime values appearing in pipelines and result documents.
`objectId` carries its hex string form, `date` its isoformat string;
floats are split into the three special values the serializer treats
specially plus an abstract finite payload. -/
inductive MValue where
  | null : MValue
  | bool (b : Bool) : MValue
  | int (n : Int) : MValue
  | fnum (q : Int) : MValue
  | fnan : MValue
  | finf : MValue
  | fninf : MValue
  | str (s : String) : MValue
  | objectId (s : String) : MValue
  | date (s : String) : MValue
  | doc (fields : List (String × MValue)) : MValue
  | arr (items : List MValue) : MValue

/-- Python truthiness of an `Optional[str]`: `None` and `""` are falsy. -/
def pyTruthyStr : Option String → Bool
  | none => false
  | some s => s ≠ ""

/-- Python `x or default` for an `Optional[str]` (`None` and `""` fall through). -/
def pyOrStr (x : Option String) (d : String) : String :=
  match x with
  | none => d
  | some s => if s = "" then d else s

/-- Python `x or default` for an `Optional[int]` (`None` and `0` fall through). -/
def pyOrNat (x : Option Nat) (d : Nat) : Nat :=
  match x with
  | none => d
  | some n => if n = 0 then d else n

/-- Python `not pipeline` for an `Optional[list]`: `None` and `[]` are falsy. -/
def pyFalsyList (x : Option (List MValue)) : Bool :=
  match x with
  | none => true
  | some l => l.isEmpty

/-- Substring containment on strings (Python `pat in s`). -/
def strContains (s pat : String) : Bool :=
  s.data.tails.any (fun t => pat.data.isPrefixOf t)

/-- Python `s.startswith(pre)`, on the character list. -/
def strStartsWith (s pre : String) : Bool :=
  pre.data.isPrefixOf s.data

/-- Python `s.lower()`, on the character list. -/
def strToLower (s : String) : String :=
  ⟨s.data.map Char.toLower⟩

/-! ## Serializer (executor.py, MongoDBQueryExecutor._serialize_results) -/

mutual

/-- One value of `_serialize_results`'s inner `serialize`:
ObjectId → its string form, datetime → isoformat string, NaN → None,
±inf → "Infinity"/"-Infinity", dict and list recurse, all else unchanged. -/
def serialize : MValue → MValue
  | .objectId s => .str s
  | .date s => .str s
  | .fnan => .null
  | .finf => .str "Infinity"
  | .fninf => .str "-Infinity"
  | .fnum q => .fnum q
  | .doc fields => .doc (serializeFields fields)
  | .arr items => .arr (serializeList items)
  | .null => .null
  | .bool b => .bool b
  | .int n => .int n
  | .str s => .str s

/-- `{k: serialize(v) for k, v in value.items()}`. -/
def serializeFields : List (String × MValue) → List (String × MValue)
  | [] => []
  | (k, v) :: rest => (k, serialize v) :: serializeFields rest

/-- `[serialize(item) for item in value]`. -/
def serializeList : List MValue → List MValue
  | [] => []
  | v :: rest => serialize v :: serializeList rest

end

/-- `_serialize_results`: serialize every result document. -/
def serialize_results (results : List MValue) : List MValue :=
  serializeList results

mutual

/-- A value is JSON-safe when no ObjectId, datetime or float special
survives anywhere inside it. -/
def jsonSafe : MValue → Bool
  | .objectId _ => false
  | .date _ => false
  | .fnan => false
  | .finf => false
  | .fninf => false
  | .doc fields => jsonSafeFields fields
  | .arr items => jsonSafeList items
  | _ => true

def jsonSafeFields : List (String × MValue) → Bool
  | [] => true
  | (_, v) :: rest => jsonSafe v && jsonSafeFields rest

def jsonSafeList : List MValue → Bool
  | [] => true
  | v :: rest => jsonSafe v && jsonSafeList rest

end

/-! ## Engine oracle -/

/-- Outcome of one call to `collection.aggregate(...)`: a clean document
list, a raised `OperationFailure` (with its optional error code and its
message), or any other raised exception. -/
inductive EngineOutcome where
  | ok (docs : List MValue) : EngineOutcome
  | opFailure (code : Option Int) (msg : String) : EngineOutcome
  | exc (msg : String) : EngineOutcome

/-- `{"$limit": n}`. -/
def limitStageOf (n : Nat) : MValue :=
  .doc [("$limit", .int (Int.ofNat n))]

/-- Python `"$limit" in stage` on a stage dict. -/
def hasLimitKey : MValue → Bool
  | .doc fields => fields.any (fun kv => kv.1 == "$limit")
  | _ => false

/-! ## Validator (validators.py, QueryValidator.validate_aggregation_pipeline) -/

/-- A stage passes the structural loop body: it is a dict, has exactly one
key, and that key starts with "$". -/
def stageOK : MValue → Bool
  | .doc fields =>
    fields.length == 1 &&
      (match fields with
       | (k, _) :: _ => strStartsWith k "$"
       | [] => false)
  | _ => false

/-- The error message produced for the stage at index `idx`, in the order
the source checks: dict-ness, then key count, then the "$" sigil. -/
def stageErrMsg (idx : Nat) : MValue → String
  | .doc fields =>
    if fields.length ≠ 1 then
      "Stage " ++ toString idx ++ " must have exactly one operator"
    else
      "Stage " ++ toString idx ++ ": '" ++ ((fields.head?.map Prod.fst).getD "")
        ++ "' is not a valid aggregation operator (must start with $)"
  | _ => "Stage " ++ toString idx ++ " must be a dictionary"

/-- The indexed structural loop, stopping at the first offending stage. -/
def structuralGo : Nat → List MValue → Option String
  | _, [] => none
  | idx, s :: rest => if stageOK s then structuralGo (idx + 1) rest else some (stageErrMsg idx s)

/-- Structural phase of validation (the list-type check is carried by the
Lean type of `pipeline`). -/
def structuralError (pipeline : List MValue) : Option String :=
  if pipeline.isEmpty then some "Pipeline cannot be empty" else structuralGo 0 pipeline

/-- The pipeline the dry-run actually executes: a copy of the caller's
list, with `{"$limit": 1}` appended when no stage carries a "$limit" key. -/
def dryRunPipeline (pipeline : List MValue) : List MValue :=
  if pipeline.any hasLimitKey then pipeline else pipeline ++ [limitStageOf 1]

/-- The timeout classification of an `OperationFailure` during the dry-run:
code 50, or "exceeded time limit" inside the lower-cased message. -/
def isTimeoutFailure (code : Option Int) (msg : String) : Bool :=
  code == some 50 || strContains (strToLower msg) "exceeded time limit"

/-- `QueryValidator.validate_aggregation_pipeline`.  Returns the verdict
pair together with the caller's stage list after the call (the source
appends the dry-run cap to a `.copy()` of the list, so the caller's list
is returned unchanged). -/
def validate_aggregation_pipeline (dryRun : List MValue → EngineOutcome)
    (pipeline : List MValue) : (Bool × Option String) × List MValue :=
  match structuralError pipeline with
  | some err => ((false, some err), pipeline)
  | none =>
    match dryRun (dryRunPipeline pipeline) with
    | .ok _ => ((true, none), pipeline)
    | .opFailure code msg =>
      if isTimeoutFailure code msg then ((true, none), pipeline)
      else ((false, some ("Invalid pipeline: " ++ msg)), pipeline)
    | .exc msg => ((false, some ("Validation error: " ++ msg)), pipeline)

/-! ## Executor (executor.py, MongoDBQueryExecutor.execute_aggregation) -/

/-- Result of `execute_aggregation`: `(True, serialized rows)` or
`(False, error message)`. -/
inductive ExecOut where
  | ok (rows : List MValue) : ExecOut
  | fail (msg : String) : ExecOut

/-- `MongoDBQueryExecutor.execute_aggregation`.  Appends `{"$limit": lim}`
in place when no stage has a "$limit" key (`lim` is the `limit or
self.max_results` of the source), runs the engine on the resulting list,
and serializes the rows.  The second component is the caller's stage list
after the call — the source mutates it in place. -/
def execute_aggregation (engine : List MValue → EngineOutcome) (max_results : Nat)
    (limit : Option Nat) (pipeline : List MValue) : ExecOut × List MValue :=
  let lim := pyOrNat limit max_results
  let finalPipeline :=
    if pipeline.any hasLimitKey then pipeline else pipeline ++ [limitStageOf lim]
  match engine finalPipeline with
  | .ok docs => (.ok (serialize_results docs), finalPipeline)
  | .opFailure _ msg => (.fail ("Query execution failed: " ++ msg), finalPipeline)
  | .exc msg => (.fail ("Unexpected error during execution: " ++ msg), finalPipeline)

/-! ## Summarizer (summarizer.py, AnswerSummarizer.summarize) -/

/-- The completion-service response visible to `summarize`: the optional
`output_text` attribute and the response id. -/
structure CompletionResponse where
  outputText : Option String
  id : String

/-- `getattr(response, "output_text", None) or "Results retrieved successfully"`. -/
def answerTextOf (r : CompletionResponse) : String :=
  pyOrStr r.outputText "Results retrieved successfully"

/-- `AnswerSummarizer.summarize`.  The completion call may raise (the
source has no handler around `responses.create`); on return the answer
text falls back to the fixed acknowledgment when the output is empty.
Prompt construction (row truncation to 20 for the prompt text) does not
affect the returned value and is abstracted into the oracle. -/
def summarize (svc : Except String CompletionResponse) :
    Except String (String × Option String) :=
  match svc with
  | .error e => .error e
  | .ok r => .ok (answerTextOf r, some r.id)

/-! ## Orchestrator (agent.py, GPT5MongoDBAgent.query)

The retry loop is embedded with an explicit environment of oracles and an
event trace recording every phase call it makes. -/

/-- The tuple returned by `PipelineGenerator.generate` (pipeline_generator.py
is not under src/; per its call sites and the spec it returns the candidate
pipeline or null, the new response id, the raw response — of which only a
possible `reasoning_summary` attribute is ever read — and an error string
or null, and raises nothing). -/
structure GenResult where
  pipeline : Option (List MValue)
  responseId : Option String
  rawReasoning : Option String
  error : Option String

/-- The external world of one `query` invocation: the generator oracle
(indexed by attempt number so successive service calls may differ), the
dry-run and real aggregation engines, the summarization completion call
(which may raise), and the executor's configured `max_results`. -/
structure Env where
  gen : Nat → Option String → Option String → GenResult
  dryRun : List MValue → EngineOutcome
  engine : List MValue → EngineOutcome
  completion : Except String CompletionResponse
  maxResults : Nat

/-- One phase call made by the retry loop, with the data it was given. -/
inductive Event where
  | egen (attempt : Nat) (prevError : Option String) (prevRespId : Option String)
      (res : GenResult) : Event
  | evalidate (attempt : Nat) (pipeline : List MValue)
      (verdict : Bool × Option String) : Event
  | eexecute (attempt : Nat) (pipeline : List MValue) : Event
  | esummarize (attempt : Nat) (pipeline : List MValue) (results : List MValue) : Event

/-- Recognizer for the summarization call in a trace. -/
def isSummarizeEvent : Event → Bool
  | .esummarize _ _ _ => true
  | _ => false

/-- The dict returned by `query` (agent.py).  The source's failure dicts
carry no `result_count`/`response_id` keys; absent keys are `none` here. -/
structure AgentResult where
  success : Bool
  answer : Option String
  pipeline : Option (List MValue)
  results : Option (List MValue)
  result_count : Option Nat
  reasoning_summary : Option String
  response_id : Option String
  error : Option String

/-- The dict built after the `for` loop falls through with no success:
`success=False`, `error = last_error or "Failed to generate MongoDB
pipeline"`, everything else null. -/
def loopFailure (lastError : Option String) : AgentResult :=
  { success := false, answer := none, pipeline := none, results := none,
    result_count := none, reasoning_summary := none, response_id := none,
    error := some (pyOrStr lastError "Failed to generate MongoDB pipeline") }

/-- The body of `GPT5MongoDBAgent.query`'s `for` loop, as a fuel recursion:
`attempt` is the 1-based iteration number, `fuel` the iterations left.
Returns the result — `Except.error` models an exception escaping the loop
(only the summarization completion call can raise) — paired with the trace
of phase calls made. -/
def queryLoop (env : Env) :
    Nat → Nat → Option String → Option String → Option String →
    Except String AgentResult × List Event
  | _, 0, _, lastError, _ => (.ok (loopFailure lastError), [])
  | attempt, fuel + 1, prevError, _, prevRespId =>
    let g := env.gen attempt prevError prevRespId
    if pyFalsyList g.pipeline then
      let r := queryLoop env (attempt + 1) fuel g.error g.error g.responseId
      (r.1, .egen attempt prevError prevRespId g :: r.2)
    else
      let p := g.pipeline.getD []
      let v := (validate_aggregation_pipeline env.dryRun p).1
      if v.1 then
        let er := execute_aggregation env.engine env.maxResults none p
        match er.1 with
        | .fail msg =>
          let r := queryLoop env (attempt + 1) fuel (some msg) (some msg) g.responseId
          (r.1, .egen attempt prevError prevRespId g :: .evalidate attempt p v ::
            .eexecute attempt p :: r.2)
        | .ok rows =>
          match summarize env.completion with
          | .error e =>
            (.error e,
             [.egen attempt prevError prevRespId g, .evalidate attempt p v,
              .eexecute attempt p, .esummarize attempt er.2 rows])
          | .ok (ans, ansId) =>
            (.ok { success := true, answer := some ans, pipeline := some er.2,
                   results := some rows, result_count := some rows.length,
                   reasoning_summary := g.rawReasoning, response_id := ansId,
                   error := none },
             [.egen attempt prevError prevRespId g, .evalidate attempt p v,
              .eexecute attempt p, .esummarize attempt er.2 rows])
      else
        let r := queryLoop env (attempt + 1) fuel v.2 v.2 g.responseId
        (r.1, .egen attempt prevError prevRespId g :: .evalidate attempt p v :: r.2)

/-- `GPT5MongoDBAgent.query`: three attempts (`self.max_attempts = 3`),
with the top-level `except Exception` turning any escaped exception into a
failure dict carrying `"GPT-5 Agent error: " + str(exc)`. -/
def agentQuery (env : Env) (previousResponseId : Option String) :
    AgentResult × List Event :=
  let r := queryLoop env 1 3 none none previousResponseId
  match r.1 with
  | .ok res => (res, r.2)
  | .error e =>
    ({ success := false, answer := none, pipeline := none, results := none,
       result_count := none, reasoning_summary := none, response_id := none,
       error := some ("GPT-5 Agent error: " ++ e) }, r.2)

/-! ## LangGraph wrapper (langgraph_agent.py, LangGraphMongoDBAgent)

The conditional graph is embedded as node functions over the `AgentState`
dict plus a driver following the compiled graph's edges.  Its `query` has
no top-level exception handler, so an exception raised inside a node —
the summarization completion call — escapes to the caller. -/

/-- `AgentState` (TypedDict, total=False); unset keys are `none`/defaults. -/
structure LGState where
  attempt : Nat := 0
  maxAttempts : Nat := 3
  pipeline : Option (List MValue) := none
  pipelineResponseId : Option String := none
  rawReasoning : Option String := none
  previousError : Option String := none
  previousResponseId : Option String := none
  results : Option (List MValue) := none
  answer : Option String := none
  error : Option String := none
  reasoningSummary : Option String := none
  responseId : Option String := none

/-- The labels returned by the conditional-edge routers. -/
inductive LGRoute where
  | run | retry | stop | summarizeNext

/-- `_generate_pipeline_node`. -/
def lgGenerateNode (env : Env) (s : LGState) : LGState :=
  let attempt := s.attempt + 1
  let g := env.gen attempt s.previousError s.previousResponseId
  { s with attempt := attempt, pipeline := g.pipeline,
           pipelineResponseId := g.responseId, rawReasoning := g.rawReasoning,
           previousResponseId := g.responseId, error := g.error,
           previousError := g.error }

/-- `_after_generate`: run when the pipeline is truthy, else stop at the
attempt cap, else retry. -/
def lgAfterGenerate (s : LGState) : LGRoute :=
  if pyFalsyList s.pipeline = false then .run
  else if s.attempt ≥ s.maxAttempts then .stop
  else .retry

/-- `_run_pipeline_node`: validate then execute, clearing the pipeline and
recording the error on either failure. -/
def lgRunNode (env : Env) (s : LGState) : LGState :=
  match s.pipeline with
  | none => s
  | some p =>
    if p.isEmpty then s
    else
      let v := (validate_aggregation_pipeline env.dryRun p).1
      if v.1 = false then
        { s with error := v.2, previousError := v.2, pipeline := none }
      else
        let er := execute_aggregation env.engine env.maxResults none p
        match er.1 with
        | .fail msg =>
          { s with error := some msg, previousError := some msg, pipeline := none }
        | .ok rows =>
          { s with results := some rows, error := none, previousError := none,
                   pipeline := some er.2 }

/-- `_after_run`: retry (or stop at the cap) when an error is recorded,
else summarize. -/
def lgAfterRun (s : LGState) : LGRoute :=
  if pyTruthyStr s.error then
    (if s.attempt ≥ s.maxAttempts then .stop else .retry)
  else .summarizeNext

/-- `_summarize_node`: the only node that can raise (no handler around the
completion call on the summarization path). -/
def lgSummarizeNode (env : Env) (s : LGState) : Except String LGState :=
  match summarize env.completion with
  | .error e => .error e
  | .ok (ans, ansId) =>
    .ok { s with answer := some ans, responseId := ansId,
                 reasoningSummary := s.rawReasoning, error := none }

/-- The compiled graph's control flow, fuel-bounded (LangGraph's own
recursion limit far exceeds the 3-attempt loop, so the fuel-0 base is
never reached from `lgQuery`). -/
def lgLoop (env : Env) : Nat → LGState → Except String LGState
  | 0, s => .ok s
  | fuel + 1, s =>
    let s1 := lgGenerateNode env s
    match lgAfterGenerate s1 with
    | .stop => .ok s1
    | .retry => lgLoop env fuel s1
    | .summarizeNext => lgLoop env fuel s1
    | .run =>
      let s2 := lgRunNode env s1
      match lgAfterRun s2 with
      | .summarizeNext => lgSummarizeNode env s2
      | .stop => .ok s2
      | .retry => lgLoop env fuel s2
      | .run => lgLoop env fuel s2

/-- `LangGraphMongoDBAgent.query`: build the initial state, invoke the
graph, and shape the final state into the result dict.  There is no
`try`/`except` here — an exception from the graph propagates. -/
def lgQuery (env : Env) (previousResponseId : Option String) :
    Except String AgentResult :=
  match lgLoop env 3 { previousResponseId := previousResponseId } with
  | .error e => .error e
  | .ok final =>
    if pyTruthyStr final.answer then
      let results := final.results.getD []
      .ok { success := true, answer := final.answer, pipeline := final.pipeline,
            results := some results, result_count := some results.length,
            reasoning_summary := final.reasoningSummary,
            response_id := final.responseId, error := none }
    else
      .ok { success := false, answer := none, pipeline := final.pipeline,
            results := final.results, result_count := none,
            reasoning_summary := final.reasoningSummary, response_id := none,
            error := some (pyOrStr final.error "Failed to generate MongoDB pipeline") }

/-! ## Trace properties and concrete environments used by the theorems -/

/-- C1 part 1 as a trace property: every pipeline the loop passes to the
executor had been judged valid — `(True, None)` — by the validator. -/
def execOnlyValid (env : Env) (tr : List Event) : Prop :=
  ∀ i k p, tr.get? i = some (.eexecute k p) →
    (validate_aggregation_pipeline env.dryRun p).1 = (true, none)

/-- C1 part 2 as a trace property: an invalid verdict is immediately
followed — when any attempt follows at all, i.e. up to the attempt cap —
by a generation call whose previous-error feedback is exactly the
validator's error string. -/
def feedbackChained (tr : List Event) : Prop :=
  ∀ i k p e, tr.get? i = some (.evalidate k p (false, some e)) →
    tr.get? (i + 1) = none ∨
      ∃ rid g, tr.get? (i + 1) = some (.egen (k + 1) (some e) rid g)

/-- A structurally fine pipeline whose dry-run the engine rejects. -/
def pBadW : List MValue := [.doc [("$foo", .null)]]

/-- A pipeline (with its own "$limit") that validates and executes. -/
def pGoodW : List MValue := [limitStageOf 5]

/-- Environment whose first generation attempt yields `pBadW` (rejected by
the dry-run with "unknown field") and whose second yields `pGoodW`, which
then executes and summarizes cleanly. -/
def envTwoAttempt : Env :=
  { gen := fun a _ _ =>
      if a = 1 then
        { pipeline := some pBadW, responseId := some "r1", rawReasoning := none, error := none }
      else
        { pipeline := some pGoodW, responseId := some "r2", rawReasoning := none, error := none },
    dryRun := fun tp => if tp.length = 2 then .opFailure none "unknown field" else .ok [],
    engine := fun _ => .ok [],
    completion := .ok ⟨some "done", "id9"⟩,
    maxResults := 100 }

/-- Environment whose generator never produces a pipeline. -/
def envGenFail : Env :=
  { gen := fun _ _ _ =>
      { pipeline := none, responseId := none, rawReasoning := none,
        error := some "bad JSON" },
    dryRun := fun _ => .ok [],
    engine := fun _ => .ok [],
    completion := .ok ⟨some "x", "i"⟩,
    maxResults := 100 }

/-- Environment for the happy path: one attempt, validation and execution
succeed, the summarizer returns text. -/
def envHappy : Env :=
  { gen := fun _ _ _ =>
      { pipeline := some [.doc [("$count", .str "total")]], responseId := some "rA",
        rawReasoning := some "rsum", error := none },
    dryRun := fun _ => .ok [],
    engine := fun _ => .ok [.doc [("total", .int 346000)]],
    completion := .ok ⟨some "There are 346000 records", "idB"⟩,
    maxResults := 100 }

/-- Environment in which generation, validation and execution all succeed
but the summarization completion call raises. -/
def envSummarizeBoom : Env :=
  { gen := fun _ _ _ =>
      { pipeline := some [.doc [("$count", .str "total")]], responseId := some "rA",
        rawReasoning := none, error := none },
    dryRun := fun _ => .ok [],
    engine := fun _ => .ok [.doc [("total", .int 1)]],
    completion := .error "connection reset",
    maxResults := 100 }

/-- The graph driver again, instrumented with the same event trace as the
agent.py loop: one `egen` per generate-node run (with the previous-error
and response id it feeds the generator), then per run-node run an
`evalidate` and — only when the verdict was valid — an `eexecute`, and an
`esummarize` when the summarize node runs.  `lgLoopT_fst` proves its
result component equal to `lgLoop`'s, so this is the served graph's run,
not a fork. -/
def lgLoopT (env : Env) : Nat → LGState → Except String LGState × List Event
  | 0, _s => (.ok _s, [])
  | fuel + 1, s =>
    let g := env.gen (s.attempt + 1) s.previousError s.previousResponseId
    let ev1 := Event.egen (s.attempt + 1) s.previousError s.previousResponseId g
    let s1 := lgGenerateNode env s
    match lgAfterGenerate s1 with
    | .stop => (.ok s1, [ev1])
    | .retry =>
      let r := lgLoopT env fuel s1
      (r.1, ev1 :: r.2)
    | .summarizeNext =>
      let r := lgLoopT env fuel s1
      (r.1, ev1 :: r.2)
    | .run =>
      let p := s1.pipeline.getD []
      let v := (validate_aggregation_pipeline env.dryRun p).1
      let evs :=
        if v.1 then [ev1, Event.evalidate s1.attempt p v, Event.eexecute s1.attempt p]
        else [ev1, Event.evalidate s1.attempt p v]
      let s2 := lgRunNode env s1
      match lgAfterRun s2 with
      | .summarizeNext =>
        let ev4 := Event.esummarize s1.attempt (s2.pipeline.getD []) (s2.results.getD [])
        match lgSummarizeNode env s2 with
        | .error e => (.error e, evs ++ [ev4])
        | .ok s3 => (.ok s3, evs ++ [ev4])
      | .stop => (.ok s2, evs)
      | .retry =>
        let r := lgLoopT env fuel s2
        (r.1, evs ++ r.2)
      | .run =>
        let r := lgLoopT env fuel s2
        (r.1, evs ++ r.2)

/-- Environment whose generator always returns an empty JSON array as the
pipeline, with no error (an empty array is still an array per the
generator contract). -/
def envEmptyGen : Env :=
  { gen := fun _ _ _ =>
      { pipeline := some [], responseId := some "r0", rawReasoning := none,
        error := none },
    dryRun := fun _ => .ok [],
    engine := fun _ => .ok [],
    completion := .ok ⟨some "x", "i"⟩,
    maxResults := 100 }

/-! ## Serializer lemmas -/

mutual

theorem serialize_idem : (v : MValue) → serialize (serialize v) = serialize v
  | .objectId _ => rfl
  | .date _ => rfl
  | .fnan => rfl
  | .finf => rfl
  | .fninf => rfl
  | .fnum _ => rfl
  | .null => rfl
  | .bool _ => rfl
  | .int _ => rfl
  | .str _ => rfl
  | .doc fields => by
      simp only [serialize]
      rw [serializeFields_idem fields]
  | .arr items => by
      simp only [serialize]
      rw [serializeList_idem items]

theorem serializeFields_idem :
    (fs : List (String × MValue)) → serializeFields (serializeFields fs) = serializeFields fs
  | [] => rfl
  | (k, v) :: rest => by
      simp only [serializeFields]
      rw [serialize_idem v, serializeFields_idem rest]

theorem serializeList_idem :
    (xs : List MValue) → serializeList (serializeList xs) = serializeList xs
  | [] => rfl
  | v :: rest => by
      simp only [serializeList]
      rw [serialize_idem v, serializeList_idem rest]

end

mutual

theorem jsonSafe_serialize : (v : MValue) → jsonSafe (serialize v) = true
  | .objectId _ => rfl
  | .date _ => rfl
  | .fnan => rfl
  | .finf => rfl
  | .fninf => rfl
  | .fnum _ => rfl
  | .null => rfl
  | .bool _ => rfl
  | .int _ => rfl
  | .str _ => rfl
  | .doc fields => by
      simp only [serialize, jsonSafe]
      exact jsonSafeFields_serialize fields
  | .arr items => by
      simp only [serialize, jsonSafe]
      exact jsonSafeList_serialize items

theorem jsonSafeFields_serialize :
    (fs : List (String × MValue)) → jsonSafeFields (serializeFields fs) = true
  | [] => rfl
  | (k, v) :: rest => by
      simp only [serializeFields, jsonSafeFields]
      rw [jsonSafe_serialize v, jsonSafeFields_serialize rest]
      rfl

theorem jsonSafeList_serialize :
    (xs : List MValue) → jsonSafeList (serializeList xs) = true
  | [] => rfl
  | v :: rest => by
      simp only [serializeList, jsonSafeList]
      rw [jsonSafe_serialize v, jsonSafeList_serialize rest]
      rfl

end

/-- C9. For every result value, the serializer maps ObjectIds, datetimes,
NaN and ±Infinity to JSON-safe values (strings or null), recurses through
nested dicts and lists, its output is entirely JSON-safe, and
`_serialize_results` is idempotent: re-serializing its own output returns
it unchanged. -/
theorem serializer_specials_safe_and_idempotent :
    (∀ s, serialize (.objectId s) = .str s) ∧
    (∀ s, serialize (.date s) = .str s) ∧
    serialize .fnan = .null ∧
    serialize .finf = .str "Infinity" ∧
    serialize .fninf = .str "-Infinity" ∧
    (∀ fs, serialize (.doc fs) = .doc (serializeFields fs)) ∧
    (∀ xs, serialize (.arr xs) = .arr (serializeList xs)) ∧
    (∀ v, jsonSafe (serialize v) = true) ∧
    (∀ rs, serialize_results (serialize_results rs) = serialize_results rs) :=
  ⟨fun _ => rfl, fun _ => rfl, rfl, rfl, rfl, fun _ => rfl, fun _ => rfl,
   jsonSafe_serialize, fun rs => serializeList_idem rs⟩

/-! ## Executor lemmas -/

/-- The stage list the executor actually runs (and leaves in the caller's
hands): unchanged when a "$limit" stage is present, else the cap appended. -/
theorem execute_aggregation_snd (engine : List MValue → EngineOutcome)
    (maxRes : Nat) (lim : Option Nat) (p : List MValue) :
    (execute_aggregation engine maxRes lim p).2 =
      (if p.any hasLimitKey then p else p ++ [limitStageOf (pyOrNat lim maxRes)]) := by
  simp only [execute_aggregation]
  split <;> rfl

/-- C7. For every pipeline with no "$limit" stage, `execute_aggregation`
(called as the agent calls it, with no explicit limit) appends exactly one
"$limit" stage carrying the configured maximum before running; a pipeline
that already has a "$limit" stage anywhere runs as given, nothing appended. -/
theorem executor_appends_exactly_one_cap (engine : List MValue → EngineOutcome)
    (maxRes : Nat) (p : List MValue) :
    (p.any hasLimitKey = false →
       (execute_aggregation engine maxRes none p).2 = p ++ [limitStageOf maxRes]) ∧
    (p.any hasLimitKey = true →
       (execute_aggregation engine maxRes none p).2 = p) := by
  constructor
  · intro h
    rw [execute_aggregation_snd, h]
    rfl
  · intro h
    rw [execute_aggregation_snd, h]
    rfl

/-- Witness for C7 on concrete pipelines: without a cap stage the cap is
appended; with one present the pipeline is untouched. -/
theorem executor_appends_exactly_one_cap_witness :
    (execute_aggregation (fun _ => .ok []) 100 none [.doc [("$match", .doc [])]]).2 =
        [.doc [("$match", .doc [])], limitStageOf 100] ∧
    (execute_aggregation (fun _ => .ok []) 100 none [limitStageOf 5]).2 =
        [limitStageOf 5] := by
  constructor
  · exact (executor_appends_exactly_one_cap (fun _ => .ok []) 100
      [.doc [("$match", .doc [])]]).1 rfl
  · exact (executor_appends_exactly_one_cap (fun _ => .ok []) 100 [limitStageOf 5]).2 rfl

/-- C10. Validation leaves the caller's stage list unchanged (its dry-run
cap goes onto a copy), while execution appends its cap to the caller's
list in place, so the list the caller holds afterwards differs. -/
theorem validate_copies_execute_mutates (dryRun engine : List MValue → EngineOutcome)
    (maxRes : Nat) (p : List MValue) :
    ((validate_aggregation_pipeline dryRun p).2 = p) ∧
    (p.any hasLimitKey = false →
       dryRunPipeline p = p ++ [limitStageOf 1] ∧
       (execute_aggregation engine maxRes none p).2 = p ++ [limitStageOf maxRes] ∧
       (execute_aggregation engine maxRes none p).2 ≠ p) := by
  constructor
  · simp only [validate_aggregation_pipeline]
    split
    · rfl
    · split <;> [rfl; skip; rfl]
      split <;> rfl
  · intro h
    have h2 : (execute_aggregation engine maxRes none p).2 = p ++ [limitStageOf maxRes] := by
      rw [execute_aggregation_snd, h]; rfl
    refine ⟨by simp [dryRunPipeline, h], h2, ?_⟩
    rw [h2]
    intro hc
    have := congrArg List.length hc
    simp at this

/-- Witness for C10 at a concrete pipeline lacking a cap stage. -/
theorem validate_copies_execute_mutates_witness :
    ((validate_aggregation_pipeline (fun _ => .ok []) [.doc [("$count", .str "t")]]).2 =
        [.doc [("$count", .str "t")]]) ∧
    (execute_aggregation (fun _ => .ok []) 7 none [.doc [("$count", .str "t")]]).2 ≠
        [.doc [("$count", .str "t")]] :=
  ⟨(validate_copies_execute_mutates (fun _ => .ok []) (fun _ => .ok []) 7
      [.doc [("$count", .str "t")]]).1,
   ((validate_copies_execute_mutates (fun _ => .ok []) (fun _ => .ok []) 7
      [.doc [("$count", .str "t")]]).2 rfl).2.2⟩

/-! ## Validator lemmas -/

/-- C2. A dry-run `OperationFailure` whose code is 50 or whose message
reports the time limit was exceeded makes `validate_aggregation_pipeline`
return `(True, None)`: a pure timeout is classified as valid. -/
theorem dryrun_timeout_classified_valid (dryRun : List MValue → EngineOutcome)
    (p : List MValue) (code : Option Int) (msg : String)
    (hs : structuralError p = none)
    (hd : dryRun (dryRunPipeline p) = .opFailure code msg)
    (ht : code = some 50 ∨ strContains (strToLower msg) "exceeded time limit" = true) :
    validate_aggregation_pipeline dryRun p = ((true, none), p) := by
  have htf : isTimeoutFailure code msg = true := by
    rcases ht with h | h
    · simp [isTimeoutFailure, h]
    · simp [isTimeoutFailure, h]
  simp only [validate_aggregation_pipeline, hs, hd, htf, if_true]

/-- Witness for C2: a concrete structurally valid pipeline whose dry-run
raises code-50, and one whose dry-run message reports the time limit. -/
theorem dryrun_timeout_classified_valid_witness :
    validate_aggregation_pipeline (fun _ => .opFailure (some 50) "x")
        [.doc [("$count", .str "total")]] =
      ((true, none), [.doc [("$count", .str "total")]]) ∧
    validate_aggregation_pipeline
        (fun _ => .opFailure none "PlanExecutor error: operation Exceeded Time Limit")
        [.doc [("$count", .str "total")]] =
      ((true, none), [.doc [("$count", .str "total")]]) :=
  ⟨dryrun_timeout_classified_valid _ _ _ _ rfl rfl (Or.inl rfl),
   dryrun_timeout_classified_valid _ _ _ _ rfl rfl (Or.inr (by decide))⟩

/-- The structural loop reports the first offending stage: if every stage
before index `i` passes and stage `i` fails, the loop (started at base
index `idx`) returns that stage's indexed message. -/
theorem structuralGo_first_violation :
    ∀ (l : List MValue) (idx i : Nat) (hi : i < l.length),
      (∀ j (hj : j < i), stageOK (l.get ⟨j, Nat.lt_trans hj hi⟩) = true) →
      stageOK (l.get ⟨i, hi⟩) = false →
      structuralGo idx l = some (stageErrMsg (idx + i) (l.get ⟨i, hi⟩))
  | [], _, i, hi, _, _ => absurd hi (by simp)
  | s :: rest, idx, 0, _, _, hbad => by
      simp only [List.get] at hbad
      simp [structuralGo, hbad]
  | s :: rest, idx, i + 1, hi, hgood, hbad => by
      have hs : stageOK s = true := hgood 0 (Nat.succ_pos i)
      have hrest := structuralGo_first_violation rest (idx + 1) i
        (Nat.lt_of_succ_lt_succ hi)
        (fun j hj => hgood (j + 1) (Nat.succ_lt_succ hj))
        hbad
      simp only [structuralGo, hs, if_true]
      rw [show idx + (i + 1) = (idx + 1) + i by omega]
      exact hrest

/-- C8. An empty pipeline, a non-dict stage, a stage with a key count other
than one, or a stage whose key lacks the "$" sigil makes validation return
`(False, error)`, the error naming the index of the first offending stage;
checking stops at the first violation (later stages are unconstrained). -/
theorem validator_structural_first_violation (dryRun : List MValue → EngineOutcome)
    (p : List MValue) :
    (p = [] →
       validate_aggregation_pipeline dryRun p =
         ((false, some "Pipeline cannot be empty"), p)) ∧
    (∀ i (hi : i < p.length),
       (∀ j (hj : j < i), stageOK (p.get ⟨j, Nat.lt_trans hj hi⟩) = true) →
       stageOK (p.get ⟨i, hi⟩) = false →
       validate_aggregation_pipeline dryRun p =
         ((false, some (stageErrMsg i (p.get ⟨i, hi⟩))), p)) := by
  constructor
  · intro h
    subst h
    rfl
  · intro i hi hgood hbad
    have hne : p.isEmpty = false := by
      cases p with
      | nil => exact absurd hi (by simp)
      | cons a l => rfl
    have hgo := structuralGo_first_violation p 0 i hi hgood hbad
    rw [Nat.zero_add] at hgo
    have hse : structuralError p = some (stageErrMsg i (p.get ⟨i, hi⟩)) := by
      simp only [structuralError, hne, Bool.false_eq_true, if_false]
      rw [hgo]
    simp only [validate_aggregation_pipeline, hse]

/-- Witness for C8: empty pipeline; and a pipeline whose stage 0 is fine
but whose stage 1 is not a dict, rejected with the stage-1 message. -/
theorem validator_structural_first_violation_witness :
    (validate_aggregation_pipeline (fun _ => .ok []) [] =
       ((false, some "Pipeline cannot be empty"), [])) ∧
    (validate_aggregation_pipeline (fun _ => .ok [])
        [.doc [("$match", .doc [])], .int 3] =
       ((false, some "Stage 1 must be a dictionary"),
        [.doc [("$match", .doc [])], .int 3])) := by
  constructor
  · exact (validator_structural_first_violation (fun _ => .ok []) []).1 rfl
  · exact (validator_structural_first_violation (fun _ => .ok [])
      [.doc [("$match", .doc [])], .int 3]).2 1 (by decide)
      (fun j hj => by
        match j, hj with
        | 0, _ => rfl)
      rfl

/-! ## Orchestrator trace lemmas -/

/-- The validator's verdict is either `(True, None)` or `(False, some msg)`. -/
theorem validate_verdict_shape (dryRun : List MValue → EngineOutcome) (p : List MValue) :
    (validate_aggregation_pipeline dryRun p).1 = (true, none) ∨
    ∃ m, (validate_aggregation_pipeline dryRun p).1 = (false, some m) := by
  simp only [validate_aggregation_pipeline]
  split
  · exact Or.inr ⟨_, rfl⟩
  · split
    · exact Or.inl rfl
    · split
      · exact Or.inl rfl
      · exact Or.inr ⟨_, rfl⟩
    · exact Or.inr ⟨_, rfl⟩

/-- A non-exhausted loop's trace starts with the generation call for the
current attempt, fed the current previous-error and response id. -/
theorem queryLoop_trace_head (env : Env) (attempt n : Nat) (pe le rid : Option String) :
    (queryLoop env attempt (n + 1) pe le rid).2.head? =
      some (.egen attempt pe rid (env.gen attempt pe rid)) := by
  simp only [queryLoop]
  split
  · rfl
  · split
    · split
      · rfl
      · split <;> rfl
    · rfl

/-- A verdict whose Boolean is true is exactly `(True, None)`. -/
theorem validate_true_none (dryRun : List MValue → EngineOutcome) (p : List MValue)
    (h : ((validate_aggregation_pipeline dryRun p).1).1 = true) :
    (validate_aggregation_pipeline dryRun p).1 = (true, none) := by
  rcases validate_verdict_shape dryRun p with hv | ⟨m, hv⟩
  · exact hv
  · rw [hv] at h
    simp at h

theorem queryLoop_execOnlyValid (env : Env) :
    ∀ (fuel attempt : Nat) (pe le rid : Option String),
      execOnlyValid env (queryLoop env attempt fuel pe le rid).2 := by
  intro fuel
  induction fuel with
  | zero =>
    intro attempt pe le rid i k p h
    simp [queryLoop] at h
  | succ n ih =>
    intro attempt pe le rid i k p h
    simp only [queryLoop] at h
    split at h
    · match i with
      | 0 => simp at h
      | i + 1 =>
        rw [List.get?_cons_succ] at h
        exact ih (attempt + 1) _ _ _ i k p h
    · split at h
      · rename_i hvalid
        split at h
        · match i with
          | 0 => simp at h
          | 1 => simp at h
          | 2 =>
            simp only [List.get?_cons_succ, List.get?_cons_zero, Option.some.injEq,
              Event.eexecute.injEq] at h
            obtain ⟨hk, hp⟩ := h
            subst hp
            exact validate_true_none env.dryRun _ hvalid
          | i + 3 =>
            simp only [List.get?_cons_succ] at h
            exact ih (attempt + 1) _ _ _ i k p h
        · split at h
          · match i with
            | 0 => simp at h
            | 1 => simp at h
            | 2 =>
              simp only [List.get?_cons_succ, List.get?_cons_zero, Option.some.injEq,
                Event.eexecute.injEq] at h
              obtain ⟨hk, hp⟩ := h
              subst hp
              exact validate_true_none env.dryRun _ hvalid
            | 3 => simp at h
            | i + 4 => simp at h
          · match i with
            | 0 => simp at h
            | 1 => simp at h
            | 2 =>
              simp only [List.get?_cons_succ, List.get?_cons_zero, Option.some.injEq,
                Event.eexecute.injEq] at h
              obtain ⟨hk, hp⟩ := h
              subst hp
              exact validate_true_none env.dryRun _ hvalid
            | 3 => simp at h
            | i + 4 => simp at h
      · match i with
        | 0 => simp at h
        | 1 => simp at h
        | i + 2 =>
          simp only [List.get?_cons_succ] at h
          exact ih (attempt + 1) _ _ _ i k p h

theorem queryLoop_feedbackChained (env : Env) :
    ∀ (fuel attempt : Nat) (pe le rid : Option String),
      feedbackChained (queryLoop env attempt fuel pe le rid).2 := by
  intro fuel
  induction fuel with
  | zero =>
    intro attempt pe le rid i k p e h
    simp [queryLoop] at h
  | succ n ih =>
    intro attempt pe le rid i k p e h
    simp only [queryLoop] at h ⊢
    revert h
    split
    · intro h
      match i with
      | 0 => simp at h
      | i + 1 =>
        rw [List.get?_cons_succ] at h
        rw [List.get?_cons_succ]
        exact ih (attempt + 1) _ _ _ i k p e h
    · split
      · rename_i hvalid
        split
        · intro h
          match i with
          | 0 => simp at h
          | 1 =>
            simp only [List.get?_cons_succ, List.get?_cons_zero, Option.some.injEq,
              Event.evalidate.injEq] at h
            obtain ⟨_, _, hv⟩ := h
            rw [hv] at hvalid
            simp at hvalid
          | 2 => simp at h
          | i + 3 =>
            rw [List.get?_cons_succ, List.get?_cons_succ, List.get?_cons_succ] at h
            rw [List.get?_cons_succ, List.get?_cons_succ, List.get?_cons_succ]
            exact ih (attempt + 1) _ _ _ i k p e h
        · split
          · intro h
            match i with
            | 0 => simp at h
            | 1 =>
              simp only [List.get?_cons_succ, List.get?_cons_zero, Option.some.injEq,
                Event.evalidate.injEq] at h
              obtain ⟨_, _, hv⟩ := h
              rw [hv] at hvalid
              simp at hvalid
            | 2 => simp at h
            | 3 => simp at h
            | i + 4 => simp at h
          · intro h
            match i with
            | 0 => simp at h
            | 1 =>
              simp only [List.get?_cons_succ, List.get?_cons_zero, Option.some.injEq,
                Event.evalidate.injEq] at h
              obtain ⟨_, _, hv⟩ := h
              rw [hv] at hvalid
              simp at hvalid
            | 2 => simp at h
            | 3 => simp at h
            | i + 4 => simp at h
      · intro h
        match i with
        | 0 => simp at h
        | 1 =>
          simp only [List.get?_cons_succ, List.get?_cons_zero, Option.some.injEq,
            Event.evalidate.injEq] at h
          obtain ⟨hk, hp, hv⟩ := h
          rw [List.get?_cons_succ, List.get?_cons_succ, List.get?_zero]
          match n with
          | 0 =>
            left
            simp [queryLoop]
          | m + 1 =>
            right
            rw [queryLoop_trace_head env (attempt + 1) m]
            rw [hv, hk]
            exact ⟨_, _, rfl⟩
        | i + 2 =>
          rw [List.get?_cons_succ, List.get?_cons_succ] at h
          rw [List.get?_cons_succ, List.get?_cons_succ]
          exact ih (attempt + 1) _ _ _ i k p e h

/-- The trace of `agentQuery` is the loop's trace (the top-level handler
only reshapes the result). -/
theorem agentQuery_trace (env : Env) (prid : Option String) :
    (agentQuery env prid).2 = (queryLoop env 1 3 none none prid).2 := by
  simp only [agentQuery]
  split <;> rfl

/-! ## LangGraph lemmas -/

/-- Appending anything to a non-empty string stays non-empty. -/
theorem str_append_ne_empty (a b : String) (ha : a ≠ "") : a ++ b ≠ "" := by
  intro hc
  apply ha
  have hd := congrArg String.data hc
  rw [String.data_append] at hd
  cases a with
  | mk d =>
    cases d with
    | nil => rfl
    | cons c t => simp at hd

/-- The summarizer's answer text is never empty. -/
theorem answerTextOf_ne_empty (r : CompletionResponse) : answerTextOf r ≠ "" := by
  have hdef : answerTextOf r = pyOrStr r.outputText "Results retrieved successfully" := rfl
  rw [hdef]
  cases hr : r.outputText with
  | none =>
    simp only [pyOrStr]
    decide
  | some s =>
    simp only [pyOrStr]
    split_ifs with h
    · decide
    · exact h

/-- A structural stage message is never empty. -/
theorem stageErrMsg_ne_empty (idx : Nat) (s : MValue) : stageErrMsg idx s ≠ "" := by
  have hs : "Stage " ++ toString idx ≠ "" := str_append_ne_empty _ _ (by decide)
  cases s
  case doc fields =>
    simp only [stageErrMsg]
    split
    · exact str_append_ne_empty _ _ hs
    · exact str_append_ne_empty _ _ (str_append_ne_empty _ _ (str_append_ne_empty _ _ hs))
  all_goals exact str_append_ne_empty _ _ hs

/-- The structural loop never reports an empty message. -/
theorem structuralGo_some_ne_empty :
    ∀ (idx : Nat) (l : List MValue) (e : String), structuralGo idx l = some e → e ≠ ""
  | _, [], _, h => by simp [structuralGo] at h
  | idx, s :: rest, e, h => by
      simp only [structuralGo] at h
      split at h
      · exact structuralGo_some_ne_empty (idx + 1) rest e h
      · injection h with h2
        rw [← h2]
        exact stageErrMsg_ne_empty idx s

/-- The validator never reports an empty error message. -/
theorem validate_false_error_ne_empty (dryRun : List MValue → EngineOutcome)
    (p : List MValue) (e : String)
    (h : (validate_aggregation_pipeline dryRun p).1 = (false, some e)) : e ≠ "" := by
  simp only [validate_aggregation_pipeline] at h
  split at h
  · rename_i err heq
    have h3 : err = e := by
      have h2 : some err = some e := congrArg Prod.snd h
      injection h2
    rw [← h3]
    simp only [structuralError] at heq
    split at heq
    · injection heq with heq2
      rw [← heq2]
      decide
    · exact structuralGo_some_ne_empty 0 p err heq
  · split at h
    · simp at h
    · split at h
      · simp at h
      · rename_i code msg heqf htf
        have h3 : "Invalid pipeline: " ++ msg = e := by
          have h2 : some ("Invalid pipeline: " ++ msg) = some e :=
            congrArg Prod.snd h
          injection h2
        rw [← h3]
        exact str_append_ne_empty _ _ (by decide)
    · rename_i msg heqf
      have h3 : "Validation error: " ++ msg = e := by
        have h2 : some ("Validation error: " ++ msg) = some e :=
          congrArg Prod.snd h
        injection h2
      rw [← h3]
      exact str_append_ne_empty _ _ (by decide)

/-- A returned summarizer pair has non-empty answer text. -/
theorem summarize_ok_nonempty (svc : Except String CompletionResponse)
    (pr : String × Option String) (h : summarize svc = .ok pr) : pr.1 ≠ "" := by
  cases svc with
  | error e => simp [summarize] at h
  | ok r =>
    simp only [summarize] at h
    injection h with h2
    rw [← h2]
    exact answerTextOf_ne_empty r

/-- A successful summarize node sets a truthy (non-empty) answer. -/
theorem lgSummarizeNode_ok_answer (env : Env) (s s3 : LGState)
    (h : lgSummarizeNode env s = .ok s3) : ∃ a, s3.answer = some a ∧ a ≠ "" := by
  simp only [lgSummarizeNode] at h
  split at h
  · simp at h
  · rename_i ans ansId heq
    injection h with h2
    refine ⟨ans, ?_, summarize_ok_nonempty env.completion (ans, ansId) heq⟩
    rw [← h2]

/-- A falsy optional stage list is `None` or the empty list. -/
theorem pyFalsyList_true_cases (x : Option (List MValue)) (h : pyFalsyList x = true) :
    x = none ∨ x = some [] := by
  cases x with
  | none => exact Or.inl rfl
  | some l =>
    cases l with
    | nil => exact Or.inr rfl
    | cons a t => simp [pyFalsyList, List.isEmpty] at h

/-- The generate router: "run" means the pipeline was truthy. -/
theorem lgAfterGenerate_run_falsy (s : LGState) (h : lgAfterGenerate s = .run) :
    pyFalsyList s.pipeline = false := by
  cases hf : pyFalsyList s.pipeline with
  | false => rfl
  | true =>
    exfalso
    simp only [lgAfterGenerate, hf] at h
    rw [if_neg (by decide)] at h
    split at h <;> simp at h

/-- The generate router: "stop" means the pipeline was falsy. -/
theorem lgAfterGenerate_stop_falsy (s : LGState) (h : lgAfterGenerate s = .stop) :
    pyFalsyList s.pipeline = true := by
  cases hf : pyFalsyList s.pipeline with
  | true => rfl
  | false =>
    exfalso
    simp [lgAfterGenerate, hf] at h

/-- The generate router: "retry" means the pipeline was falsy. -/
theorem lgAfterGenerate_retry_falsy (s : LGState) (h : lgAfterGenerate s = .retry) :
    pyFalsyList s.pipeline = true := by
  cases hf : pyFalsyList s.pipeline with
  | true => rfl
  | false =>
    exfalso
    simp [lgAfterGenerate, hf] at h

/-- The generate router never routes to the summarize node. -/
theorem lgAfterGenerate_ne_summarizeNext (s : LGState) :
    lgAfterGenerate s ≠ .summarizeNext := by
  intro h
  cases hf : pyFalsyList s.pipeline with
  | false => simp [lgAfterGenerate, hf] at h
  | true =>
    simp only [lgAfterGenerate, hf] at h
    rw [if_neg (by decide)] at h
    split at h <;> simp at h

/-- The run router: "stop" means the recorded error was truthy. -/
theorem lgAfterRun_stop_truthy (s : LGState) (h : lgAfterRun s = .stop) :
    pyTruthyStr s.error = true := by
  cases ht : pyTruthyStr s.error with
  | true => rfl
  | false =>
    exfalso
    simp [lgAfterRun, ht] at h

/-- The run router: "retry" means the recorded error was truthy. -/
theorem lgAfterRun_retry_truthy (s : LGState) (h : lgAfterRun s = .retry) :
    pyTruthyStr s.error = true := by
  cases ht : pyTruthyStr s.error with
  | true => rfl
  | false =>
    exfalso
    simp [lgAfterRun, ht] at h

/-- The run router: "summarize" means the recorded error was falsy. -/
theorem lgAfterRun_summarize_falsy (s : LGState) (h : lgAfterRun s = .summarizeNext) :
    pyTruthyStr s.error = false := by
  cases ht : pyTruthyStr s.error with
  | false => rfl
  | true =>
    exfalso
    simp only [lgAfterRun, ht] at h
    rw [if_pos (by decide)] at h
    split at h <;> simp at h

/-- The run router never loops straight back into the run node. -/
theorem lgAfterRun_ne_run (s : LGState) : lgAfterRun s ≠ .run := by
  intro h
  cases ht : pyTruthyStr s.error with
  | false => simp [lgAfterRun, ht] at h
  | true =>
    simp only [lgAfterRun, ht] at h
    rw [if_pos (by decide)] at h
    split at h <;> simp at h

/-- Run node on an invalid verdict: record the validator's exact error and
clear the pipeline; the executor is untouched. -/
theorem lgRunNode_invalid (env : Env) (s : LGState) (p : List MValue) (e : String)
    (hp : s.pipeline = some p) (hne : p.isEmpty = false)
    (hv : (validate_aggregation_pipeline env.dryRun p).1 = (false, some e)) :
    lgRunNode env s = { s with error := some e, previousError := some e, pipeline := none } := by
  simp only [lgRunNode, hp, hne, hv]
  rfl

/-- Run node on a valid verdict whose execution fails: record the
executor's error and clear the pipeline. -/
theorem lgRunNode_execfail (env : Env) (s : LGState) (p : List MValue) (msg : String)
    (hp : s.pipeline = some p) (hne : p.isEmpty = false)
    (hv : (validate_aggregation_pipeline env.dryRun p).1 = (true, none))
    (he : (execute_aggregation env.engine env.maxResults none p).1 = .fail msg) :
    lgRunNode env s =
      { s with error := some msg, previousError := some msg, pipeline := none } := by
  simp only [lgRunNode, hp, hne, hv, he]
  rfl

/-- Run node on a valid verdict whose execution succeeds: record the rows,
clear the error, and keep the executor-mutated pipeline. -/
theorem lgRunNode_execok (env : Env) (s : LGState) (p : List MValue) (rows : List MValue)
    (hp : s.pipeline = some p) (hne : p.isEmpty = false)
    (hv : (validate_aggregation_pipeline env.dryRun p).1 = (true, none))
    (he : (execute_aggregation env.engine env.maxResults none p).1 = .ok rows) :
    lgRunNode env s =
      { s with results := some rows, error := none, previousError := none,
               pipeline := some (execute_aggregation env.engine env.maxResults none p).2 } := by
  simp only [lgRunNode, hp, hne, hv, he]
  rfl

/-- The traced graph driver computes the same result as the plain one. -/
theorem lgLoopT_fst (env : Env) :
    ∀ (fuel : Nat) (s : LGState), (lgLoopT env fuel s).1 = lgLoop env fuel s := by
  intro fuel
  induction fuel with
  | zero => intro s; rfl
  | succ n ih =>
    intro s
    simp only [lgLoopT, lgLoop]
    split
    · rfl
    · exact ih _
    · exact ih _
    · split
      · split
        · rename_i e heq
          simp [heq]
        · rename_i s3 heq
          simp [heq]
      · rfl
      · exact ih _
      · exact ih _

/-- A non-exhausted traced run's trace starts with the generation call for
the next attempt, fed the state's previous error and response id. -/
theorem lgLoopT_trace_head (env : Env) (n : Nat) (s : LGState) :
    (lgLoopT env (n + 1) s).2.head? =
      some (.egen (s.attempt + 1) s.previousError s.previousResponseId
        (env.gen (s.attempt + 1) s.previousError s.previousResponseId)) := by
  simp only [lgLoopT]
  split
  · rfl
  · rfl
  · rfl
  · split
    · split <;> (split <;> rfl)
    · split <;> rfl
    · split <;> rfl
    · split <;> rfl

theorem lgLoopT_execOnlyValid (env : Env) :
    ∀ (fuel : Nat) (s : LGState), execOnlyValid env (lgLoopT env fuel s).2 := by
  intro fuel
  induction fuel with
  | zero =>
    intro s i k p h
    simp [lgLoopT] at h
  | succ n ih =>
    intro s i k p h
    simp only [lgLoopT] at h
    split at h
    · match i with
      | 0 => simp at h
      | i + 1 => simp at h
    · match i with
      | 0 => simp at h
      | i + 1 =>
        rw [List.get?_cons_succ] at h
        exact ih _ i k p h
    · match i with
      | 0 => simp at h
      | i + 1 =>
        rw [List.get?_cons_succ] at h
        exact ih _ i k p h
    · split at h
      · split at h
        all_goals
          split at h
          · rename_i hvalid
            simp only [List.cons_append, List.nil_append] at h
            match i with
            | 0 => simp at h
            | 1 => simp at h
            | 2 =>
              simp only [List.get?_cons_succ, List.get?_cons_zero, Option.some.injEq,
                Event.eexecute.injEq] at h
              obtain ⟨hk, hp⟩ := h
              subst hp
              exact validate_true_none env.dryRun _ hvalid
            | 3 => simp at h
            | i + 4 => simp at h
          · simp only [List.cons_append, List.nil_append] at h
            match i with
            | 0 => simp at h
            | 1 => simp at h
            | 2 => simp at h
            | i + 3 => simp at h
      · split at h
        · rename_i hvalid
          match i with
          | 0 => simp at h
          | 1 => simp at h
          | 2 =>
            simp only [List.get?_cons_succ, List.get?_cons_zero, Option.some.injEq,
              Event.eexecute.injEq] at h
            obtain ⟨hk, hp⟩ := h
            subst hp
            exact validate_true_none env.dryRun _ hvalid
          | i + 3 => simp at h
        · match i with
          | 0 => simp at h
          | 1 => simp at h
          | i + 2 => simp at h
      · split at h
        · rename_i hvalid
          simp only [List.cons_append, List.nil_append] at h
          match i with
          | 0 => simp at h
          | 1 => simp at h
          | 2 =>
            simp only [List.get?_cons_succ, List.get?_cons_zero, Option.some.injEq,
              Event.eexecute.injEq] at h
            obtain ⟨hk, hp⟩ := h
            subst hp
            exact validate_true_none env.dryRun _ hvalid
          | i + 3 =>
            simp only [List.get?_cons_succ] at h
            exact ih _ i k p h
        · simp only [List.cons_append, List.nil_append] at h
          match i with
          | 0 => simp at h
          | 1 => simp at h
          | i + 2 =>
            simp only [List.get?_cons_succ] at h
            exact ih _ i k p h
      · split at h
        · rename_i hvalid
          simp only [List.cons_append, List.nil_append] at h
          match i with
          | 0 => simp at h
          | 1 => simp at h
          | 2 =>
            simp only [List.get?_cons_succ, List.get?_cons_zero, Option.some.injEq,
              Event.eexecute.injEq] at h
            obtain ⟨hk, hp⟩ := h
            subst hp
            exact validate_true_none env.dryRun _ hvalid
          | i + 3 =>
            simp only [List.get?_cons_succ] at h
            exact ih _ i k p h
        · simp only [List.cons_append, List.nil_append] at h
          match i with
          | 0 => simp at h
          | 1 => simp at h
          | i + 2 =>
            simp only [List.get?_cons_succ] at h
            exact ih _ i k p h

theorem lgLoopT_feedbackChained (env : Env) :
    ∀ (fuel : Nat) (s : LGState), feedbackChained (lgLoopT env fuel s).2 := by
  intro fuel
  induction fuel with
  | zero =>
    intro s i k p e h
    simp [lgLoopT] at h
  | succ n ih =>
    intro s i k p e h
    simp only [lgLoopT] at h ⊢
    revert h
    split
    · intro h
      match i with
      | 0 => simp at h
      | i + 1 => simp at h
    · intro h
      match i with
      | 0 => simp at h
      | i + 1 =>
        rw [List.get?_cons_succ] at h
        rw [List.get?_cons_succ]
        exact ih _ i k p e h
    · intro h
      match i with
      | 0 => simp at h
      | i + 1 =>
        rw [List.get?_cons_succ] at h
        rw [List.get?_cons_succ]
        exact ih _ i k p e h
    · rename_i hroute
      have hfal := lgAfterGenerate_run_falsy _ hroute
      cases hsp : (lgGenerateNode env s).pipeline with
      | none =>
        rw [hsp] at hfal
        simp [pyFalsyList] at hfal
      | some p0 =>
        have hne : p0.isEmpty = false := by
          rw [hsp] at hfal
          simpa [pyFalsyList] using hfal
        simp only [Option.getD]
        rcases validate_verdict_shape env.dryRun p0 with hv | ⟨m, hv⟩
        · rw [hv, if_pos rfl]
          split
          · split
            all_goals
              intro h
              match i with
              | 0 => simp at h
              | 1 => simp at h
              | 2 => simp at h
              | 3 => simp at h
              | i + 4 => simp at h
          · intro h
            match i with
            | 0 => simp at h
            | 1 => simp at h
            | 2 => simp at h
            | i + 3 => simp at h
          · intro h
            simp only [List.cons_append, List.nil_append] at h ⊢
            match i with
            | 0 => simp at h
            | 1 => simp at h
            | 2 => simp at h
            | i + 3 =>
              rw [List.get?_cons_succ, List.get?_cons_succ, List.get?_cons_succ] at h
              rw [List.get?_cons_succ, List.get?_cons_succ, List.get?_cons_succ]
              exact ih _ i k p e h
          · intro h
            simp only [List.cons_append, List.nil_append] at h ⊢
            match i with
            | 0 => simp at h
            | 1 => simp at h
            | 2 => simp at h
            | i + 3 =>
              rw [List.get?_cons_succ, List.get?_cons_succ, List.get?_cons_succ] at h
              rw [List.get?_cons_succ, List.get?_cons_succ, List.get?_cons_succ]
              exact ih _ i k p e h
        · have hnem : m ≠ "" := validate_false_error_ne_empty env.dryRun p0 m hv
          have hs2 : lgRunNode env (lgGenerateNode env s) =
              { lgGenerateNode env s with
                error := some m, previousError := some m, pipeline := none } :=
            lgRunNode_invalid env _ p0 m hsp hne hv
          rw [hv, if_neg (by simp), hs2]
          split
          · rename_i hsum
            exfalso
            have hfalse := lgAfterRun_summarize_falsy _ hsum
            simp [pyTruthyStr, hnem] at hfalse
          · intro h
            match i with
            | 0 => simp at h
            | 1 => exact Or.inl rfl
            | i + 2 => simp at h
          · intro h
            simp only [List.cons_append, List.nil_append] at h ⊢
            match i with
            | 0 => simp at h
            | 1 =>
              simp only [List.get?_cons_succ, List.get?_cons_zero, Option.some.injEq,
                Event.evalidate.injEq, Prod.mk.injEq] at h
              obtain ⟨hk, hp, -, hme⟩ := h
              rw [List.get?_cons_succ, List.get?_cons_succ, List.get?_zero]
              match n with
              | 0 => exact Or.inl rfl
              | n2 + 1 =>
                right
                rw [lgLoopT_trace_head]
                exact ⟨_, _, by rw [← hk, ← hme]⟩
            | i + 2 =>
              rw [List.get?_cons_succ, List.get?_cons_succ] at h
              rw [List.get?_cons_succ, List.get?_cons_succ]
              exact ih _ i k p e h
          · intro h
            simp only [List.cons_append, List.nil_append] at h ⊢
            match i with
            | 0 => simp at h
            | 1 =>
              simp only [List.get?_cons_succ, List.get?_cons_zero, Option.some.injEq,
                Event.evalidate.injEq, Prod.mk.injEq] at h
              obtain ⟨hk, hp, -, hme⟩ := h
              rw [List.get?_cons_succ, List.get?_cons_succ, List.get?_zero]
              match n with
              | 0 => exact Or.inl rfl
              | n2 + 1 =>
                right
                rw [lgLoopT_trace_head]
                exact ⟨_, _, by rw [← hk, ← hme]⟩
            | i + 2 =>
              rw [List.get?_cons_succ, List.get?_cons_succ] at h
              rw [List.get?_cons_succ, List.get?_cons_succ]
              exact ih _ i k p e h

/-- C1. Over the whole invocation, in both orchestrations — the agent.py
retry loop and the LangGraph graph the API serves (`lgLoopT` is the traced
run of that graph; `lgLoopT_fst` identifies it with `lgQuery`'s run): the
orchestrator never passes a pipeline judged invalid to the executor (every
executed pipeline carries the valid verdict), and every invalid verdict is
immediately followed — up to the attempt cap — by a generation call
receiving the validator's exact error string as previous-error feedback. -/
theorem invalid_never_executed_error_fed_back (env : Env) (prid : Option String) :
    (execOnlyValid env (agentQuery env prid).2 ∧ feedbackChained (agentQuery env prid).2) ∧
    (execOnlyValid env (lgLoopT env 3 { previousResponseId := prid }).2 ∧
     feedbackChained (lgLoopT env 3 { previousResponseId := prid }).2) := by
  constructor
  · rw [agentQuery_trace]
    exact ⟨queryLoop_execOnlyValid env 3 1 none none prid,
           queryLoop_feedbackChained env 3 1 none none prid⟩
  · exact ⟨lgLoopT_execOnlyValid env 3 _, lgLoopT_feedbackChained env 3 _⟩

/-- Witness for C1: in `envTwoAttempt`'s run — under both orchestrations —
the executed pipeline (trace position 4) was judged valid, and the event
after the invalid verdict (trace position 2) is a generation call fed the
exact validator error. -/
theorem invalid_never_executed_error_fed_back_witness :
    ((validate_aggregation_pipeline envTwoAttempt.dryRun pGoodW).1 = (true, none) ∧
     ((agentQuery envTwoAttempt none).2.get? 2 = none ∨
       ∃ rid g, (agentQuery envTwoAttempt none).2.get? 2 =
         some (.egen 2 (some "Invalid pipeline: unknown field") rid g))) ∧
    ((validate_aggregation_pipeline envTwoAttempt.dryRun pGoodW).1 = (true, none) ∧
     ((lgLoopT envTwoAttempt 3 { previousResponseId := none }).2.get? 2 = none ∨
       ∃ rid g, (lgLoopT envTwoAttempt 3 { previousResponseId := none }).2.get? 2 =
         some (.egen 2 (some "Invalid pipeline: unknown field") rid g))) :=
  ⟨⟨(invalid_never_executed_error_fed_back envTwoAttempt none).1.1 4 2 pGoodW rfl,
    (invalid_never_executed_error_fed_back envTwoAttempt none).1.2 1 1 pBadW
      "Invalid pipeline: unknown field" rfl⟩,
   ⟨(invalid_never_executed_error_fed_back envTwoAttempt none).2.1 4 2 pGoodW rfl,
    (invalid_never_executed_error_fed_back envTwoAttempt none).2.2 1 1 pBadW
      "Invalid pipeline: unknown field" rfl⟩⟩

/-- If no summarization call appears in the loop's trace (no attempt got
past execution), the loop fell through and returned the terminal failure
dict. -/
theorem queryLoop_no_summarize (env : Env) :
    ∀ (fuel attempt : Nat) (pe le rid : Option String),
      (queryLoop env attempt fuel pe le rid).2.any isSummarizeEvent = false →
      ∃ le2, (queryLoop env attempt fuel pe le rid).1 = .ok (loopFailure le2) := by
  intro fuel
  induction fuel with
  | zero =>
    intro attempt pe le rid _
    exact ⟨le, rfl⟩
  | succ n ih =>
    intro attempt pe le rid h
    simp only [queryLoop] at h ⊢
    revert h
    split
    · intro h
      simp only [List.any_cons, isSummarizeEvent, Bool.false_or] at h
      exact ih (attempt + 1) _ _ _ h
    · split
      · split
        · intro h
          simp only [List.any_cons, isSummarizeEvent, Bool.false_or] at h
          exact ih (attempt + 1) _ _ _ h
        · split
          all_goals
            intro h
            simp [isSummarizeEvent] at h
      · intro h
        simp only [List.any_cons, isSummarizeEvent, Bool.false_or] at h
        exact ih (attempt + 1) _ _ _ h

/-- A LangGraph run started from the initial state (no answer, no results,
no pipeline) that ends in a final state with a falsy answer — attempt
exhaustion — carries no results, and its pipeline is null unless the last
generation attempt produced an empty stage list. -/
theorem lgLoop_failure_final (env : Env) :
    ∀ (fuel : Nat) (s : LGState), s.answer = none → s.results = none →
      pyFalsyList s.pipeline = true →
      ∀ final, lgLoop env fuel s = .ok final → pyTruthyStr final.answer = false →
      final.results = none ∧ (final.pipeline = none ∨ final.pipeline = some []) := by
  intro fuel
  induction fuel with
  | zero =>
    intro s ha hr hp final h hfalse
    simp only [lgLoop] at h
    injection h with h2
    subst h2
    exact ⟨hr, pyFalsyList_true_cases _ hp⟩
  | succ n ih =>
    intro s ha hr hp final h hfalse
    simp only [lgLoop] at h
    split at h
    · rename_i hroute
      injection h with h2
      subst h2
      exact ⟨hr, pyFalsyList_true_cases _ (lgAfterGenerate_stop_falsy _ hroute)⟩
    · rename_i hroute
      refine ih _ ?_ ?_ ?_ final h hfalse
      · exact ha
      · exact hr
      · exact lgAfterGenerate_retry_falsy _ hroute
    · rename_i hroute
      exact absurd hroute (lgAfterGenerate_ne_summarizeNext _)
    · rename_i hroute
      have hfal := lgAfterGenerate_run_falsy _ hroute
      cases hsp : (lgGenerateNode env s).pipeline with
      | none =>
        rw [hsp] at hfal
        simp [pyFalsyList] at hfal
      | some p0 =>
        have hne : p0.isEmpty = false := by
          rw [hsp] at hfal
          simpa [pyFalsyList] using hfal
        rcases validate_verdict_shape env.dryRun p0 with hv | ⟨m, hv⟩
        · cases he : (execute_aggregation env.engine env.maxResults none p0).1 with
          | ok rows =>
            rw [lgRunNode_execok env _ p0 rows hsp hne hv he] at h
            split at h
            · obtain ⟨a, hsa, hane⟩ := lgSummarizeNode_ok_answer env _ final h
              rw [hsa] at hfalse
              simp [pyTruthyStr, hane] at hfalse
            · rename_i hstp
              have ht := lgAfterRun_stop_truthy _ hstp
              simp [pyTruthyStr] at ht
            · rename_i hrt
              have ht := lgAfterRun_retry_truthy _ hrt
              simp [pyTruthyStr] at ht
            · rename_i hrn
              exact absurd hrn (lgAfterRun_ne_run _)
          | fail msg =>
            rw [lgRunNode_execfail env _ p0 msg hsp hne hv he] at h
            split at h
            · obtain ⟨a, hsa, hane⟩ := lgSummarizeNode_ok_answer env _ final h
              rw [hsa] at hfalse
              simp [pyTruthyStr, hane] at hfalse
            · injection h with h2
              subst h2
              exact ⟨hr, Or.inl rfl⟩
            · refine ih _ ?_ ?_ ?_ final h hfalse
              · exact ha
              · exact hr
              · rfl
            · rename_i hrn
              exact absurd hrn (lgAfterRun_ne_run _)
        · have hnem := validate_false_error_ne_empty env.dryRun p0 m hv
          rw [lgRunNode_invalid env _ p0 m hsp hne hv] at h
          split at h
          · rename_i hsum
            have hfl := lgAfterRun_summarize_falsy _ hsum
            simp [pyTruthyStr, hnem] at hfl
          · injection h with h2
            subst h2
            exact ⟨hr, Or.inl rfl⟩
          · refine ih _ ?_ ?_ ?_ final h hfalse
            · exact ha
            · exact hr
            · rfl
          · rename_i hrn
            exact absurd hrn (lgAfterRun_ne_run _)

/-- C3 (amended). Attempt exhaustion without a successful execution yields
`success=False` with a non-null error in both orchestrations; the agent.py
loop also returns a null pipeline and null rows, while the LangGraph
wrapper returns null rows and a null pipeline in every case except when
the last generation attempt produced an empty stage list — then its
failure dict carries that empty list, not null. -/
theorem exhausted_attempts_failure_shape (env : Env) (prid : Option String) :
    ((agentQuery env prid).2.any isSummarizeEvent = false →
       (agentQuery env prid).1.success = false ∧
       (agentQuery env prid).1.error ≠ none ∧
       (agentQuery env prid).1.pipeline = none ∧
       (agentQuery env prid).1.results = none) ∧
    (∀ r, lgQuery env prid = .ok r → r.success = false →
       r.error ≠ none ∧ r.results = none ∧
       (r.pipeline = none ∨ r.pipeline = some [])) := by
  constructor
  · intro h
    rw [agentQuery_trace] at h
    obtain ⟨le2, hres⟩ := queryLoop_no_summarize env 3 1 none none prid h
    simp only [agentQuery, hres]
    simp [loopFailure]
  · intro r h hsucc
    simp only [lgQuery] at h
    split at h
    · simp at h
    · rename_i final heqL
      split at h
      · rename_i htr
        injection h with h2
        rw [← h2] at hsucc
        simp at hsucc
      · rename_i hfalse
        injection h with h2
        have hff := lgLoop_failure_final env 3 { previousResponseId := prid }
          rfl rfl rfl final heqL (by simpa using hfalse)
        rw [← h2]
        exact ⟨by simp, hff.1, hff.2⟩

/-- Counterexample to C3 as stated: in the served LangGraph orchestration,
a generator that returns an empty stage list (an empty JSON array, no
error) exhausts all attempts, and the failure dict carries
`pipeline = some []` — not null. -/
theorem lg_exhaustion_nonnull_pipeline_cex :
    lgQuery envEmptyGen none =
      .ok { success := false, answer := none, pipeline := some [], results := none,
            result_count := none, reasoning_summary := none, response_id := none,
            error := some "Failed to generate MongoDB pipeline" } := rfl

/-- Witness for the amended C3: `envGenFail` exhausts all three attempts of
the agent.py loop, and `envEmptyGen` exhausts the LangGraph graph with an
empty generated stage list. -/
theorem exhausted_attempts_failure_shape_witness :
    ((agentQuery envGenFail none).1.success = false ∧
     (agentQuery envGenFail none).1.error ≠ none ∧
     (agentQuery envGenFail none).1.pipeline = none ∧
     (agentQuery envGenFail none).1.results = none) ∧
    (∃ r, lgQuery envEmptyGen none = .ok r ∧ r.error ≠ none ∧ r.results = none ∧
      (r.pipeline = none ∨ r.pipeline = some [])) :=
  ⟨(exhausted_attempts_failure_shape envGenFail none).1 rfl,
   ⟨_, rfl, (exhausted_attempts_failure_shape envEmptyGen none).2 _ rfl rfl⟩⟩

/-- Rows returned by a successful execution are the serializer's output. -/
theorem execute_aggregation_ok_serialized (engine : List MValue → EngineOutcome)
    (mr : Nat) (lim : Option Nat) (p : List MValue) (rows : List MValue)
    (h : (execute_aggregation engine mr lim p).1 = .ok rows) :
    ∃ docs, rows = serialize_results docs := by
  simp only [execute_aggregation] at h
  split at h
  · rename_i docs heq
    refine ⟨docs, ?_⟩
    simp only at h
    injection h with h2
    exact h2.symm
  · simp at h
  · simp at h

/-- Everything `_serialize_results` returns is JSON-safe. -/
theorem serialize_results_all_jsonSafe : ∀ docs, (serialize_results docs).all jsonSafe = true
  | [] => rfl
  | d :: rest => by
      simp only [serialize_results, serializeList, List.all_cons]
      rw [jsonSafe_serialize d]
      have hr := serialize_results_all_jsonSafe rest
      simp only [serialize_results] at hr
      rw [hr]
      rfl

/-- A success result carries an answer, serialized JSON-safe rows, and a
count equal to the number of rows. -/
theorem queryLoop_success_shape (env : Env) :
    ∀ (fuel attempt : Nat) (pe le rid : Option String) (r : AgentResult),
      (queryLoop env attempt fuel pe le rid).1 = .ok r → r.success = true →
      ∃ a rows, r.answer = some a ∧ r.results = some rows ∧
        r.result_count = some rows.length ∧ rows.all jsonSafe = true := by
  intro fuel
  induction fuel with
  | zero =>
    intro attempt pe le rid r h hsucc
    simp only [queryLoop] at h
    injection h with h2
    rw [← h2] at hsucc
    simp [loopFailure] at hsucc
  | succ n ih =>
    intro attempt pe le rid r h hsucc
    simp only [queryLoop] at h
    revert h
    split
    · intro h
      exact ih (attempt + 1) _ _ _ r h hsucc
    · split
      · split
        · intro h
          exact ih (attempt + 1) _ _ _ r h hsucc
        · rename_i rows heq
          split
          · intro h
            simp at h
          · intro h
            simp only at h
            injection h with h2
            subst h2
            obtain ⟨docs, hdocs⟩ := execute_aggregation_ok_serialized env.engine
              env.maxResults none _ rows heq
            exact ⟨_, rows, rfl, rfl, rfl, by
              rw [hdocs]
              exact serialize_results_all_jsonSafe docs⟩
      · intro h
        exact ih (attempt + 1) _ _ _ r h hsucc

/-- The summarize node does not touch the recorded results. -/
theorem lgSummarizeNode_ok_results (env : Env) (s s3 : LGState)
    (h : lgSummarizeNode env s = .ok s3) : s3.results = s.results := by
  simp only [lgSummarizeNode] at h
  split at h
  · simp at h
  · injection h with h2
    rw [← h2]

/-- Along any LangGraph run, the recorded results are either unset or the
serializer's output (they are only ever set from a successful execution). -/
theorem lgLoop_results_serialized (env : Env) :
    ∀ (fuel : Nat) (s : LGState),
      (s.results = none ∨ ∃ docs, s.results = some (serialize_results docs)) →
      ∀ final, lgLoop env fuel s = .ok final →
      final.results = none ∨ ∃ docs, final.results = some (serialize_results docs) := by
  intro fuel
  induction fuel with
  | zero =>
    intro s hs final h
    simp only [lgLoop] at h
    injection h with h2
    subst h2
    exact hs
  | succ n ih =>
    intro s hs final h
    simp only [lgLoop] at h
    split at h
    · injection h with h2
      subst h2
      exact hs
    · refine ih _ ?_ final h
      exact hs
    · refine ih _ ?_ final h
      exact hs
    · rename_i hroute
      have hfal := lgAfterGenerate_run_falsy _ hroute
      cases hsp : (lgGenerateNode env s).pipeline with
      | none =>
        rw [hsp] at hfal
        simp [pyFalsyList] at hfal
      | some p0 =>
        have hne : p0.isEmpty = false := by
          rw [hsp] at hfal
          simpa [pyFalsyList] using hfal
        rcases validate_verdict_shape env.dryRun p0 with hv | ⟨m, hv⟩
        · cases he : (execute_aggregation env.engine env.maxResults none p0).1 with
          | ok rows =>
            obtain ⟨docs, hd⟩ := execute_aggregation_ok_serialized env.engine
              env.maxResults none p0 rows he
            rw [lgRunNode_execok env _ p0 rows hsp hne hv he] at h
            split at h
            · have hpres := lgSummarizeNode_ok_results env _ final h
              rw [hpres]
              exact Or.inr ⟨docs, by rw [← hd]⟩
            · injection h with h2
              subst h2
              exact Or.inr ⟨docs, by rw [← hd]⟩
            · refine ih _ ?_ final h
              exact Or.inr ⟨docs, by rw [← hd]⟩
            · rename_i hrn
              exact absurd hrn (lgAfterRun_ne_run _)
          | fail msg =>
            rw [lgRunNode_execfail env _ p0 msg hsp hne hv he] at h
            split at h
            · have hpres := lgSummarizeNode_ok_results env _ final h
              rw [hpres]
              exact hs
            · injection h with h2
              subst h2
              exact hs
            · refine ih _ ?_ final h
              exact hs
            · rename_i hrn
              exact absurd hrn (lgAfterRun_ne_run _)
        · rw [lgRunNode_invalid env _ p0 m hsp hne hv] at h
          split at h
          · have hpres := lgSummarizeNode_ok_results env _ final h
            rw [hpres]
            exact hs
          · injection h with h2
            subst h2
            exact hs
          · refine ih _ ?_ final h
            exact hs
          · rename_i hrn
            exact absurd hrn (lgAfterRun_ne_run _)

/-- C4. In both orchestrations, every `success=True` result of `query`
carries a non-null answer and non-null serialized (JSON-safe) rows, with
`result_count` equal to the number of rows. -/
theorem success_has_answer_rows_count (env : Env) (prid : Option String) :
    ((agentQuery env prid).1.success = true →
       ∃ a rows, (agentQuery env prid).1.answer = some a ∧
         (agentQuery env prid).1.results = some rows ∧
         (agentQuery env prid).1.result_count = some rows.length ∧
         rows.all jsonSafe = true) ∧
    (∀ r, lgQuery env prid = .ok r → r.success = true →
       ∃ a rows, r.answer = some a ∧ r.results = some rows ∧
         r.result_count = some rows.length ∧ rows.all jsonSafe = true) := by
  constructor
  · simp only [agentQuery]
    split
    · rename_i res heq
      intro h
      exact queryLoop_success_shape env 3 1 none none prid res heq h
    · intro h
      simp at h
  · intro r h hsucc
    simp only [lgQuery] at h
    split at h
    · simp at h
    · rename_i final heqL
      split at h
      · rename_i htr
        injection h with h2
        subst h2
        cases hans : final.answer with
        | none =>
          rw [hans] at htr
          simp [pyTruthyStr] at htr
        | some a =>
          have hres := lgLoop_results_serialized env 3 { previousResponseId := prid }
            (Or.inl rfl) final heqL
          refine ⟨a, final.results.getD [], rfl, rfl, rfl, ?_⟩
          rcases hres with hnone | ⟨docs, hd⟩
          · rw [hnone]
            rfl
          · rw [hd]
            exact serialize_results_all_jsonSafe docs
      · rename_i hfalse
        injection h with h2
        rw [← h2] at hsucc
        simp at hsucc

/-- Witness for C4 on the happy-path environment, for both orchestrations. -/
theorem success_has_answer_rows_count_witness :
    (∃ a rows, (agentQuery envHappy none).1.answer = some a ∧
      (agentQuery envHappy none).1.results = some rows ∧
      (agentQuery envHappy none).1.result_count = some rows.length ∧
      rows.all jsonSafe = true) ∧
    (∃ r, lgQuery envHappy none = .ok r ∧
      ∃ a rows, r.answer = some a ∧ r.results = some rows ∧
        r.result_count = some rows.length ∧ rows.all jsonSafe = true) :=
  ⟨(success_has_answer_rows_count envHappy none).1 rfl,
   ⟨_, rfl, (success_has_answer_rows_count envHappy none).2 _ rfl rfl⟩⟩

/-- If the completion call raises and the trace shows a summarization call
was made, the loop surfaces that exact exception. -/
theorem queryLoop_summarize_raises (env : Env) (e : String)
    (hc : env.completion = .error e) :
    ∀ (fuel attempt : Nat) (pe le rid : Option String),
      (queryLoop env attempt fuel pe le rid).2.any isSummarizeEvent = true →
      (queryLoop env attempt fuel pe le rid).1 = .error e := by
  intro fuel
  induction fuel with
  | zero =>
    intro attempt pe le rid h
    simp [queryLoop] at h
  | succ n ih =>
    intro attempt pe le rid h
    simp only [queryLoop] at h ⊢
    revert h
    split
    · intro h
      simp only [List.any_cons, isSummarizeEvent, Bool.false_or] at h
      exact ih (attempt + 1) _ _ _ h
    · split
      · split
        · intro h
          simp only [List.any_cons, isSummarizeEvent, Bool.false_or] at h
          exact ih (attempt + 1) _ _ _ h
        · split
          · rename_i e2 heq
            intro _
            rw [hc] at heq
            simp only [summarize] at heq
            injection heq with heq2
            rw [heq2]
          · rename_i pr heq
            intro _
            rw [hc] at heq
            simp [summarize] at heq
      · intro h
        simp only [List.any_cons, isSummarizeEvent, Bool.false_or] at h
        exact ih (attempt + 1) _ _ _ h

/-- C5 (amended). When the summarization completion call returns, the
answer text is always non-empty, falling back to the fixed acknowledgment
on empty output; but when that call raises, the exception reaches the
top-level handler and the whole invocation returns `success=False` — so
summarization can be the sole cause of a failed result. -/
theorem summarizer_fallback_but_exception_fails_query :
    (∀ r : CompletionResponse, ∃ a, summarize (.ok r) = .ok (a, some r.id) ∧ a ≠ "") ∧
    (∀ r : CompletionResponse, (r.outputText = none ∨ r.outputText = some "") →
        summarize (.ok r) = .ok ("Results retrieved successfully", some r.id)) ∧
    (∀ (env : Env) (prid : Option String) (e : String), env.completion = .error e →
        (agentQuery env prid).2.any isSummarizeEvent = true →
        (agentQuery env prid).1.success = false ∧
        (agentQuery env prid).1.error = some ("GPT-5 Agent error: " ++ e)) := by
  refine ⟨?_, ?_, ?_⟩
  · intro r
    refine ⟨answerTextOf r, rfl, ?_⟩
    cases hr : r.outputText with
    | none => simp [answerTextOf, pyOrStr, hr]
    | some s =>
      by_cases hs : s = "" <;> simp [answerTextOf, pyOrStr, hr, hs]
  · intro r hr
    rcases hr with hr | hr <;> simp [summarize, answerTextOf, pyOrStr, hr]
  · intro env prid e hc h
    rw [agentQuery_trace] at h
    have hl := queryLoop_summarize_raises env e hc 3 1 none none prid h
    simp only [agentQuery, hl]
    constructor <;> simp

/-- Counterexample to C5 as stated: a run whose execution succeeded (a
summarization call is in the trace) yet whose result is `success=False`
with the wrapped summarizer exception as the error — summarization was the
sole cause of the failure. -/
theorem summarization_sole_failure_cause_cex :
    (agentQuery envSummarizeBoom none).2.any isSummarizeEvent = true ∧
    (agentQuery envSummarizeBoom none).1.success = false ∧
    (agentQuery envSummarizeBoom none).1.error =
      some "GPT-5 Agent error: connection reset" :=
  ⟨rfl, rfl, rfl⟩

/-- Witness for the amended C5, discharging its hypotheses at concrete
inputs: empty completion output falls back to the acknowledgment text, and
`envSummarizeBoom`'s raised completion call fails the whole invocation. -/
theorem summarizer_fallback_but_exception_fails_query_witness :
    summarize (.ok ⟨some "", "idZ"⟩) = .ok ("Results retrieved successfully", some "idZ") ∧
    ((agentQuery envSummarizeBoom none).1.success = false ∧
     (agentQuery envSummarizeBoom none).1.error =
       some ("GPT-5 Agent error: " ++ "connection reset")) :=
  ⟨summarizer_fallback_but_exception_fails_query.2.1 ⟨some "", "idZ"⟩ (Or.inr rfl),
   summarizer_fallback_but_exception_fails_query.2.2 envSummarizeBoom none
     "connection reset" rfl rfl⟩

/-- A loop result that is `Except.ok` with `success=False` always carries
an error message. -/
theorem queryLoop_ok_false_has_error (env : Env) :
    ∀ (fuel attempt : Nat) (pe le rid : Option String) (r : AgentResult),
      (queryLoop env attempt fuel pe le rid).1 = .ok r →
      r.success = false → r.error ≠ none := by
  intro fuel
  induction fuel with
  | zero =>
    intro attempt pe le rid r h _
    simp only [queryLoop] at h
    injection h with h2
    rw [← h2]
    simp [loopFailure]
  | succ n ih =>
    intro attempt pe le rid r h hsucc
    simp only [queryLoop] at h
    revert h
    split
    · intro h
      exact ih (attempt + 1) _ _ _ r h hsucc
    · split
      · split
        · intro h
          exact ih (attempt + 1) _ _ _ r h hsucc
        · split
          · intro h
            simp at h
          · intro h
            simp only at h
            injection h with h2
            rw [← h2] at hsucc
            simp at hsucc
      · intro h
        exact ih (attempt + 1) _ _ _ r h hsucc

/-- C6 (amended). `GPT5MongoDBAgent.query` never surfaces an exception:
every invocation yields a well-formed result (success, or failure with an
error message), and an exception escaping the loop is converted by the
top-level handler into `success=False` with the wrapped message.  (The
LangGraph wrapper's `query` lacks such a handler — see the
counterexample.) -/
theorem base_query_never_raises (env : Env) (prid : Option String) :
    ((agentQuery env prid).1.success = true ∨
     ((agentQuery env prid).1.success = false ∧ (agentQuery env prid).1.error ≠ none)) ∧
    (∀ e, (queryLoop env 1 3 none none prid).1 = .error e →
       (agentQuery env prid).1.success = false ∧
       (agentQuery env prid).1.error = some ("GPT-5 Agent error: " ++ e)) := by
  constructor
  · simp only [agentQuery]
    split
    · rename_i res heq
      cases hs : res.success with
      | true => exact Or.inl rfl
      | false =>
        exact Or.inr ⟨rfl, queryLoop_ok_false_has_error env 3 1 none none prid res heq hs⟩
    · exact Or.inr ⟨rfl, by simp⟩
  · intro e he
    simp only [agentQuery, he]
    constructor <;> simp

/-- Counterexample to C6 as stated: `LangGraphMongoDBAgent.query` (the
instance the API layer serves) propagates the summarizer's exception to
its caller — the public query operation can raise. -/
theorem lgquery_raises_cex :
    lgQuery envSummarizeBoom none = .error "connection reset" := rfl

/-- Witness for the amended C6: the exception-conversion branch taken at a
concrete environment. -/
theorem base_query_never_raises_witness :
    (agentQuery envSummarizeBoom none).1.success = false ∧
    (agentQuery envSummarizeBoom none).1.error =
      some ("GPT-5 Agent error: " ++ "connection reset") :=
  (base_query_never_raises envSummarizeBoom none).2 "connection reset" rfl

